import Mathlib

/-!
Shallow embedding of `tracking_analysis/analysis.py` (soccer match-tracking
analysis). JSON records become structures with `Option`-typed fields (an
absent field is `none`); Python dicts become association lists with
insertion-order/overwrite semantics; code that can raise a Python exception
returns `Except PyError`. Floats are modelled as `ℚ` (the only arithmetic
performed on them here is exact: negation, counting, division, rounding).
-/

set_option maxHeartbeats 1000000

deriving instance DecidableEq for Except

namespace TrackingAnalysis

/-- The Python exceptions the embedded code can raise. -/
inductive PyError : Type where
  | idMismatchException : PyError
  | attributeError : PyError
  | indexError : PyError
  | zeroDivisionError : PyError
  | typeError : PyError
  | keyError : PyError
  deriving DecidableEq, Repr

/-- Python truthiness of an `Optional[int]`: `None` and `0` are falsy. -/
def pyTruthy : Option ℤ → Bool
  | none => false
  | some v => decide (v ≠ 0)

/-- A Python dict as an association list in insertion order.
`d[k] = v` keeps the position of an existing key and overwrites its value,
otherwise appends the new pair. -/
def dictInsert {α β : Type} [DecidableEq α] (d : List (α × β)) (k : α) (v : β) :
    List (α × β) :=
  if d.any (fun p => decide (p.1 = k)) then
    d.map (fun p => if p.1 = k then (k, v) else p)
  else
    d ++ [(k, v)]

/-- Embeds `d.get(k, None)`: the value stored at the first (unique) occurrence of
`k`, or `none` when the key is absent. -/
def dictGet {α β : Type} [DecidableEq α] (d : List (α × β)) (k : α) : Option β :=
  (d.find? (fun p => decide (p.1 = k))).map Prod.snd

/-- Embeds `Player`: fields extracted by `Player.__init__` via `dict.get`, each
`none` when absent in the source record. -/
structure Player : Type where
  last_name : Option String
  player_id : Option ℤ
  team_id : Option ℤ
  number : Option ℤ
  position : Option String
  position_id : Option ℤ
  deriving DecidableEq, Repr

/-- A location record of the structured-data document (`x`, `y`, `z`,
`trackable_object`, `track_id`), every field optional. -/
structure LocationJson : Type where
  x : Option ℚ
  y : Option ℚ
  z : Option ℚ
  trackable_object : Option ℤ
  track_id : Option ℤ
  deriving DecidableEq, Repr

/-- Embeds `Location`: raw coordinates plus the period-normalized y. -/
structure Location : Type where
  x : Option ℚ
  y : Option ℚ
  normalized_y : Option ℚ
  z : Option ℚ
  location_id : Option ℤ
  track_id : Option ℤ
  deriving DecidableEq, Repr

/-- Embeds `Location._flip_y`. -/
def flipY (y : ℚ) : ℚ := -y

/-- Embeds `Location.__init__`: stores raw `x`, `y`, `z` and ids, and sets
`normalized_y = _flip_y(y) if period == 2 else y`. When `period == 2` and
the raw `y` is absent, Python evaluates `-None` and raises `TypeError`. -/
def buildLocation (j : LocationJson) (period : Option ℤ) : Except PyError Location :=
  if period = some 2 then
    match j.y with
    | none => .error .typeError
    | some v => .ok ⟨j.x, some v, some (flipY v), j.z, j.trackable_object, j.track_id⟩
  else
    .ok ⟨j.x, j.y, j.y, j.z, j.trackable_object, j.track_id⟩

/-- The `possession` sub-record of a frame record. -/
structure PossessionJson : Type where
  trackable_object : Option ℤ
  group : Option String
  deriving DecidableEq, Repr

/-- A frame record of the structured-data document: `frame`, `time`,
`period`, `data` (location records), `possession`. The `possession` key
itself may be absent (`none`). -/
structure MomentJson : Type where
  frame : Option ℤ
  time : Option ℚ
  period : Option ℤ
  data : List LocationJson
  possession : Option PossessionJson
  deriving DecidableEq, Repr

/-- Embeds `Moment`: one frame of tracking data as held by the `Match`. -/
structure Moment : Type where
  frame : Option ℤ
  time : Option ℚ
  half : Option ℤ
  locations : List Location
  possession_id : Option ℤ
  possession_group : Option String
  deriving DecidableEq, Repr

/-- Embeds `Moment._get_possession`: reads `moment_json.get("possession")` with no
default, then calls `.get` on the result. When the `possession` key is
absent the first `get` yields `None` and `None.get(...)` raises
`AttributeError`; otherwise each missing sub-field resolves to `none`. -/
def getPossession (j : MomentJson) : Except PyError (Option ℤ × Option String) :=
  match j.possession with
  | none => .error .attributeError
  | some p => .ok (p.trackable_object, p.group)

/-- Embeds `Moment.__init__`: copies `frame`, `time`, `period`, builds the
`Location` list with the frame's period, then extracts the possession
annotation. Location construction happens before `_get_possession`, so a
`TypeError` from a location propagates first. -/
def buildMoment (j : MomentJson) : Except PyError Moment := do
  let locs ← j.data.mapM (fun l => buildLocation l j.period)
  let pos ← getPossession j
  return ⟨j.frame, j.time, j.period, locs, pos.1, pos.2⟩

/-- A referee record of the metadata document. -/
structure RefereeJson : Type where
  trackable_object : Option ℤ
  deriving DecidableEq, Repr

/-- Embeds `Match._get_referee`: `match_json.get("referees", [])[0].get("trackable_object", None)`.
An absent or empty referees list indexes `[][0]` and raises `IndexError`. -/
def getReferee (referees : Option (List RefereeJson)) : Except PyError (Option ℤ) :=
  match referees.getD [] with
  | [] => .error .indexError
  | r :: _ => .ok r.trackable_object

/-- Embeds `Match._get_all_players` loop: assign each player to the home or away
roster by comparing its `team_id` with the two registered team ids, raising
`IdMismatchException` on the first player matching neither. -/
def getAllPlayersGo (hid aid : Option ℤ) :
    List Player → List Player → List Player →
    Except PyError (List Player × List Player)
  | [], home, away => .ok (home, away)
  | p :: rest, home, away =>
    if p.team_id = hid then
      getAllPlayersGo hid aid rest (home ++ [p]) away
    else if p.team_id = aid then
      getAllPlayersGo hid aid rest home (away ++ [p])
    else
      .error .idMismatchException

/-- Embeds `Match._get_all_players`: partition the roster into home and away
players (`all_players = home_team_players + away_team_players`). -/
def getAllPlayers (hid aid : Option ℤ) (ps : List Player) :
    Except PyError (List Player × List Player) :=
  getAllPlayersGo hid aid ps [] []

/-- Embeds `Match._build_lookups`, first dict: `{p.player_id: p.last_name for p in
home + away}`, then `id_to_name[ball_id] = "ball"` and
`id_to_name[referee_id] = "referee"`. -/
def buildIdToName (ps : List Player) (bid rid : Option ℤ) :
    List (Option ℤ × Option String) :=
  dictInsert
    (dictInsert (ps.foldl (fun d p => dictInsert d p.player_id p.last_name) []) bid
      (some "ball"))
    rid (some "referee")

/-- Embeds `Match._build_lookups`, second dict: `{v: k for k, v in id_to_name.items()}`. -/
def buildNameToId (idToName : List (Option ℤ × Option String)) :
    List (Option String × Option ℤ) :=
  idToName.foldl (fun d kv => dictInsert d kv.2 kv.1) []

/-- Total order on the optional frame index used as the sort key. A `none`
frame sorts first; Python would instead raise comparing `None` with an
`int`, so the two agree on every input Python accepts. -/
def frameLe (a b : Moment) : Bool :=
  match a.frame, b.frame with
  | none, _ => true
  | some _, none => false
  | some x, some y => decide (x ≤ y)

/-- Insert a moment into a list sorted by frame index, before the first
element with a key that is not smaller (so the overall sort is stable, like
Python's `sorted`). -/
def insertByFrame (m : Moment) : List Moment → List Moment
  | [] => [m]
  | y :: ys =>
    if frameLe m y then m :: y :: ys else y :: insertByFrame m ys

/-- Embeds `sorted(list_of_moments, key=lambda x: x.frame)`: stable sort by frame
index. -/
def sortByFrame : List Moment → List Moment
  | [] => []
  | m :: ms => insertByFrame m (sortByFrame ms)

/-- One iteration of the `_build_possession_strings` scan. State:
(accumulated strings, previous possession group, current buffer). The
running `previous_possession` starts as `None`, indistinguishable from a
null possession group, exactly as in the source. -/
def scanStep (st : List (List Moment) × Option String × List Moment) (m : Moment) :
    List (List Moment) × Option String × List Moment :=
  if st.2.1 ≠ m.possession_group then
    (st.1 ++ [st.2.2], m.possession_group, [m])
  else
    (st.1, m.possession_group, st.2.2 ++ [m])

/-- The post-scan filter `set([pp.possession_group for pp in p]) != {None}`:
a segment is dropped exactly when it is nonempty and every member's group is
null (the group set of an empty segment is `set()`, not `{None}`). -/
def keepString (p : List Moment) : Bool :=
  !(!p.isEmpty && p.all (fun m => decide (m.possession_group = none)))

/-- Embeds `Analysis._build_possession_strings`: sort by frame, scan, filter. The
buffer still open when the loop ends is never appended to the result. -/
def buildPossessionStrings (ms : List Moment) : List (List Moment) :=
  (((sortByFrame ms).foldl scanStep ([], none, [])).1).filter keepString

/-- Embeds `StringOfPossession.__init__`: stores `string_of_possession[0].possession_group`
(raising `IndexError` on an empty list), the moment list, and the two
lookups. -/
structure StringOfPossession : Type where
  team : Option String
  moments : List Moment
  n2i : List (Option String × Option ℤ)
  i2n : List (Option ℤ × Option String)
  deriving DecidableEq, Repr

/-- The attribute names `StringOfPossession.__init__` assigns on `self`. -/
def sopAttrNames : List String := ["team", "moments", "n2i", "i2n"]

/-- Render an `Optional[str]` inside an f-string: `None` prints as "None". -/
def pyStr : Option String → String
  | none => "None"
  | some s => s

/-- The loop body of `StringOfPossession.__repr__` over a moment list:
starting from `"<s>"` with no previous possessor, append
`" -> "` and the looked-up name whenever the holder id is truthy and
differs from the last appended holder (a missing id in the lookup raises
`KeyError`, since the source indexes with brackets). -/
def transitionTrace (i2n : List (Option ℤ × Option String)) :
    List Moment → String → Option ℤ → Except PyError String
  | [], acc, _ => .ok acc
  | m :: rest, acc, prev =>
    if pyTruthy m.possession_id && decide (prev ≠ m.possession_id) then
      match dictGet i2n m.possession_id with
      | none => .error .keyError
      | some name =>
        transitionTrace i2n rest (acc ++ " -> " ++ pyStr name) m.possession_id
    else
      transitionTrace i2n rest acc prev

/-- Embeds `StringOfPossession.__repr__`: iterates `self.string_of_possession`,
but `__init__` stores the list under `self.moments` and never assigns an
attribute of that name, so the very first access raises `AttributeError`. -/
def reprSOP (s : StringOfPossession) : Except PyError String :=
  if "string_of_possession" ∈ sopAttrNames then
    transitionTrace s.i2n s.moments "<s>" none
  else
    .error .attributeError

/-- Embeds `np.round` on an exact rational: round half to even. -/
def roundHalfEven (x : ℚ) : ℤ :=
  if x - ⌊x⌋ < 1 / 2 then ⌊x⌋
  else if x - ⌊x⌋ > 1 / 2 then ⌊x⌋ + 1
  else if Even ⌊x⌋ then ⌊x⌋ else ⌊x⌋ + 1

/-- Embeds `np.round(q, d)`: round to `d` decimal places, half to even. -/
def npRound (q : ℚ) (d : ℕ) : ℚ :=
  (roundHalfEven (q * 10 ^ d) : ℚ) / 10 ^ d

/-- Embeds `Analysis.get_team_possession_stats`: count moments whose group is
exactly "home team" or "away team", divide each count by their sum
(`ZeroDivisionError` when the sum is zero, before any rounding), round to 3
decimals, and return the dict keyed by the two team names. -/
def getTeamPossessionStats (homeName awayName : Option String) (ms : List Moment) :
    Except PyError (List (Option String × ℚ)) :=
  let home_count := (ms.filter (fun m => decide (m.possession_group = some "home team"))).length
  let away_count := (ms.filter (fun m => decide (m.possession_group = some "away team"))).length
  let total_count := home_count + away_count
  if total_count = 0 then
    .error .zeroDivisionError
  else
    .ok (dictInsert
      (dictInsert [] homeName (npRound ((home_count : ℚ) / (total_count : ℚ)) 3))
      awayName (npRound ((away_count : ℚ) / (total_count : ℚ)) 3))

/-- The list the raw `Counter` of `get_player_possession_stats` is built
from: one resolved display name (`id_to_name.get(id, None)`, collapsing a
missing key and a stored null name) per moment whose possession id is
truthy. -/
def playerNames (i2n : List (Option ℤ × Option String)) (ms : List Moment) :
    List (Option String) :=
  (ms.filter (fun m => pyTruthy m.possession_id)).map
    (fun m => (dictGet i2n m.possession_id).join)

/-- The distinct keys of a `Counter` in first-encounter order. -/
def dedupFirst : List (Option String) → List (Option String)
  | [] => []
  | x :: xs => x :: (dedupFirst xs).filter (fun y => decide (y ≠ x))

/-- Stable insertion (descending by count) for `Counter.most_common`. -/
def insertDesc (cnt : Option String → ℕ) (x : Option String) :
    List (Option String) → List (Option String)
  | [] => [x]
  | y :: ys => if cnt y ≤ cnt x then x :: y :: ys else y :: insertDesc cnt x ys

/-- Embeds `Counter.most_common()` key order: descending by count, ties in
first-encounter order. -/
def mostCommonKeys (names : List (Option String)) : List (Option String) :=
  (dedupFirst names).foldr (insertDesc (fun n => names.count n)) []

/-- Embeds `Analysis.get_player_possession_stats`: count moments per resolved
possessor name (truthy holder ids only), divide each count by the total of
all counted moments, round to 2 decimals, ordered as `most_common`. -/
def getPlayerPossessionStats (i2n : List (Option ℤ × Option String))
    (ms : List Moment) : List (Option String × ℚ) :=
  let names := playerNames i2n ms
  (mostCommonKeys names).map
    (fun n => (n, npRound ((names.count n : ℚ) / (names.length : ℚ)) 2))

/-! ### Helper lemmas about the possession-string scan -/

theorem insertByFrame_length (m : Moment) (l : List Moment) :
    (insertByFrame m l).length = l.length + 1 := by
  induction l with
  | nil => rfl
  | cons y ys ih =>
    by_cases h : frameLe m y = true <;> simp [insertByFrame, h, ih]

theorem sortByFrame_length (l : List Moment) :
    (sortByFrame l).length = l.length := by
  induction l with
  | nil => rfl
  | cons m ms ih => simp [sortByFrame, insertByFrame_length, ih]

theorem scan_total_invariant (ms : List Moment)
    (st : List (List Moment) × Option String × List Moment) :
    (((ms.foldl scanStep st).1.map List.length).sum +
        (ms.foldl scanStep st).2.2.length) =
      ((st.1.map List.length).sum + st.2.2.length) + ms.length := by
  induction ms generalizing st with
  | nil => simp
  | cons m rest ih =>
    have step : ((scanStep st m).1.map List.length).sum +
        (scanStep st m).2.2.length =
        ((st.1.map List.length).sum + st.2.2.length) + 1 := by
      by_cases h : st.2.1 ≠ m.possession_group <;> (simp [scanStep, h]; try omega)
    calc ((((m :: rest).foldl scanStep st).1.map List.length).sum +
          ((m :: rest).foldl scanStep st).2.2.length)
        = (((rest.foldl scanStep (scanStep st m)).1.map List.length).sum +
          (rest.foldl scanStep (scanStep st m)).2.2.length) := by simp
      _ = (((scanStep st m).1.map List.length).sum +
          (scanStep st m).2.2.length) + rest.length := ih (scanStep st m)
      _ = ((st.1.map List.length).sum + st.2.2.length) + (m :: rest).length := by
          rw [step]; simp; omega

theorem scan_buffer_ne_nil (ms : List Moment)
    (st : List (List Moment) × Option String × List Moment)
    (h : st.2.2 ≠ [] ∨ ms ≠ []) : (ms.foldl scanStep st).2.2 ≠ [] := by
  induction ms generalizing st with
  | nil =>
    rcases h with h | h
    · simpa using h
    · exact absurd rfl h
  | cons m rest ih =>
    have hb : (scanStep st m).2.2 ≠ [] := by
      by_cases hc : st.2.1 ≠ m.possession_group <;> simp [scanStep, hc]
    exact ih (scanStep st m) (Or.inl hb)

theorem filter_sumLen_le (q : List Moment → Bool) (l : List (List Moment)) :
    ((l.filter q).map List.length).sum ≤ (l.map List.length).sum := by
  induction l with
  | nil => simp
  | cons x xs ih =>
    by_cases h : q x = true <;> simp [List.filter_cons, h] <;> omega

/-! ### Helper lemmas about the dict model -/

theorem dictInsert_fresh {α β : Type} [DecidableEq α] (d : List (α × β)) (k : α)
    (v : β) (h : ∀ p ∈ d, p.1 ≠ k) : dictInsert d k v = d ++ [(k, v)] := by
  have hany : d.any (fun p => decide (p.1 = k)) = false := by
    simp only [List.any_eq_false, decide_eq_true_eq]
    exact h
  simp [dictInsert, hany]

theorem foldl_dictInsert_players (ps : List Player)
    (d : List (Option ℤ × Option String))
    (hnd : (ps.map Player.player_id).Nodup)
    (hfresh : ∀ q ∈ d, ∀ p ∈ ps, q.1 ≠ p.player_id) :
    ps.foldl (fun d p => dictInsert d p.player_id p.last_name) d =
      d ++ ps.map (fun p => (p.player_id, p.last_name)) := by
  induction ps generalizing d with
  | nil => simp
  | cons p rest ih =>
    have hstep : dictInsert d p.player_id p.last_name = d ++ [(p.player_id, p.last_name)] :=
      dictInsert_fresh d _ _ (fun q hq => hfresh q hq p (List.mem_cons_self p rest))
    have hnd' : (rest.map Player.player_id).Nodup := (List.nodup_cons.mp (by simpa using hnd)).2
    have hhead : p.player_id ∉ rest.map Player.player_id :=
      (List.nodup_cons.mp (by simpa using hnd)).1
    have hfresh' : ∀ q ∈ d ++ [(p.player_id, p.last_name)], ∀ r ∈ rest,
        q.1 ≠ r.player_id := by
      intro q hq r hr
      rcases List.mem_append.mp hq with hq | hq
      · exact hfresh q hq r (List.mem_cons_of_mem p hr)
      · have hq' : q = (p.player_id, p.last_name) := by simpa using hq
        subst hq'
        intro hcontr
        have hc : p.player_id = r.player_id := hcontr
        rw [hc] at hhead
        exact hhead (List.mem_map_of_mem Player.player_id hr)
    calc (p :: rest).foldl (fun d p => dictInsert d p.player_id p.last_name) d
        = rest.foldl (fun d p => dictInsert d p.player_id p.last_name)
            (d ++ [(p.player_id, p.last_name)]) := by rw [List.foldl_cons, hstep]
      _ = (d ++ [(p.player_id, p.last_name)]) ++
            rest.map (fun p => (p.player_id, p.last_name)) := ih _ hnd' hfresh'
      _ = d ++ (p :: rest).map (fun p => (p.player_id, p.last_name)) := by simp

theorem buildIdToName_eq (ps : List Player) (bid rid : Option ℤ)
    (h : ((ps.map Player.player_id) ++ [bid, rid]).Nodup) :
    buildIdToName ps bid rid =
      ps.map (fun p => (p.player_id, p.last_name)) ++
        [(bid, some "ball"), (rid, some "referee")] := by
  have hids : (ps.map Player.player_id).Nodup := (List.nodup_append.mp h).1
  have hbid : bid ∉ ps.map Player.player_id := by
    intro hmem
    exact (List.nodup_append.mp h).2.2 hmem (by simp)
  have hrid : rid ∉ ps.map Player.player_id := by
    intro hmem
    exact (List.nodup_append.mp h).2.2 hmem (by simp)
  have hbr : bid ≠ rid := by
    have := (List.nodup_append.mp h).2.1
    simpa using this
  have hfold : ps.foldl (fun d p => dictInsert d p.player_id p.last_name) [] =
      ps.map (fun p => (p.player_id, p.last_name)) := by
    simpa using foldl_dictInsert_players ps [] hids (by simp)
  unfold buildIdToName
  rw [hfold]
  rw [dictInsert_fresh _ bid (some "ball") (by
    intro q hq
    rcases List.mem_map.mp hq with ⟨p, hp, rfl⟩
    intro hcontr
    exact hbid (hcontr ▸ List.mem_map_of_mem Player.player_id hp))]
  rw [dictInsert_fresh _ rid (some "referee") (by
    intro q hq
    rcases List.mem_append.mp hq with hq | hq
    · rcases List.mem_map.mp hq with ⟨p, hp, rfl⟩
      intro hcontr
      exact hrid (hcontr ▸ List.mem_map_of_mem Player.player_id hp)
    · have hq' : q = (bid, some "ball") := by simpa using hq
      subst hq'
      exact hbr)]
  simp

theorem foldl_dictInsert_swap (L : List (Option ℤ × Option String))
    (d : List (Option String × Option ℤ))
    (hv : (L.map Prod.snd).Nodup)
    (hfresh : ∀ q ∈ d, ∀ kv ∈ L, q.1 ≠ kv.2) :
    L.foldl (fun d kv => dictInsert d kv.2 kv.1) d =
      d ++ L.map (fun kv => (kv.2, kv.1)) := by
  induction L generalizing d with
  | nil => simp
  | cons kv rest ih =>
    have hstep : dictInsert d kv.2 kv.1 = d ++ [(kv.2, kv.1)] :=
      dictInsert_fresh d _ _ (fun q hq => hfresh q hq kv (List.mem_cons_self kv rest))
    have hv' : (rest.map Prod.snd).Nodup := (List.nodup_cons.mp (by simpa using hv)).2
    have hhead : kv.2 ∉ rest.map Prod.snd :=
      (List.nodup_cons.mp (by simpa using hv)).1
    have hfresh' : ∀ q ∈ d ++ [(kv.2, kv.1)], ∀ r ∈ rest, q.1 ≠ r.2 := by
      intro q hq r hr
      rcases List.mem_append.mp hq with hq | hq
      · exact hfresh q hq r (List.mem_cons_of_mem kv hr)
      · have hq' : q = (kv.2, kv.1) := by simpa using hq
        subst hq'
        intro hcontr
        have hc : kv.2 = r.2 := hcontr
        rw [hc] at hhead
        exact hhead (List.mem_map_of_mem Prod.snd hr)
    calc (kv :: rest).foldl (fun d kv => dictInsert d kv.2 kv.1) d
        = rest.foldl (fun d kv => dictInsert d kv.2 kv.1) (d ++ [(kv.2, kv.1)]) := by
          rw [List.foldl_cons, hstep]
      _ = (d ++ [(kv.2, kv.1)]) ++ rest.map (fun kv => (kv.2, kv.1)) := ih _ hv' hfresh'
      _ = d ++ (kv :: rest).map (fun kv => (kv.2, kv.1)) := by simp

theorem buildNameToId_eq (L : List (Option ℤ × Option String))
    (hv : (L.map Prod.snd).Nodup) :
    buildNameToId L = L.map (fun kv => (kv.2, kv.1)) := by
  simpa [buildNameToId] using foldl_dictInsert_swap L [] hv (by simp)

theorem dictGet_cons_pos {α β : Type} [DecidableEq α] (x : α × β)
    (xs : List (α × β)) (k : α) (hx : x.1 = k) :
    dictGet (x :: xs) k = some x.2 := by
  unfold dictGet
  rw [List.find?_cons_of_pos _ (by simpa using hx)]
  rfl

theorem dictGet_cons_neg {α β : Type} [DecidableEq α] (x : α × β)
    (xs : List (α × β)) (k : α) (hx : x.1 ≠ k) :
    dictGet (x :: xs) k = dictGet xs k := by
  unfold dictGet
  rw [List.find?_cons_of_neg _ (by simpa using hx)]

theorem dictGet_mem {α β : Type} [DecidableEq α] (L : List (α × β)) (k : α) (v : β)
    (hk : (L.map Prod.fst).Nodup) : dictGet L k = some v ↔ (k, v) ∈ L := by
  induction L with
  | nil => simp [dictGet]
  | cons x xs ih =>
    obtain ⟨x1, x2⟩ := x
    have hk' : (xs.map Prod.fst).Nodup := (List.nodup_cons.mp (by simpa using hk)).2
    have hhead : x1 ∉ xs.map Prod.fst := (List.nodup_cons.mp (by simpa using hk)).1
    by_cases hx : x1 = k
    · subst hx
      have hnotmem : (x1, v) ∉ xs := fun hmem =>
        hhead (List.mem_map_of_mem Prod.fst hmem)
      rw [dictGet_cons_pos (x1, x2) xs x1 rfl]
      constructor
      · intro hsome
        have hv : x2 = v := by simpa using hsome
        subst hv
        exact List.mem_cons_self _ _
      · intro hmem
        rcases List.mem_cons.mp hmem with heq | hmem
        · injection heq with h1 h2
          subst h2
          rfl
        · exact absurd hmem hnotmem
    · rw [dictGet_cons_neg (x1, x2) xs k hx, ih hk']
      constructor
      · exact fun hmem => List.mem_cons_of_mem _ hmem
      · intro hmem
        rcases List.mem_cons.mp hmem with heq | hmem
        · injection heq with h1 h2
          exact absurd h1.symm hx
        · exact hmem

theorem dictGet_isSome {α β : Type} [DecidableEq α] (L : List (α × β)) (k : α) :
    (dictGet L k).isSome ↔ k ∈ L.map Prod.fst := by
  induction L with
  | nil => simp [dictGet]
  | cons x xs ih =>
    by_cases hx : x.1 = k
    · rw [dictGet_cons_pos x xs k hx]
      simp [hx]
    · rw [dictGet_cons_neg x xs k hx, ih]
      simp [Ne.symm hx]

/-! ### Helper lemmas about the roster partition -/

theorem getAllPlayersGo_ok_sub (hid aid : Option ℤ) (ps home away hp ap : List Player)
    (h : getAllPlayersGo hid aid ps home away = .ok (hp, ap)) :
    (∀ p ∈ home, p ∈ hp) ∧ (∀ p ∈ away, p ∈ ap) := by
  induction ps generalizing home away with
  | nil =>
    simp only [getAllPlayersGo, Except.ok.injEq, Prod.mk.injEq] at h
    exact ⟨fun p hp' => h.1 ▸ hp', fun p hp' => h.2 ▸ hp'⟩
  | cons q rest ih =>
    by_cases h1 : q.team_id = hid
    · simp only [getAllPlayersGo, if_pos h1] at h
      have := ih (home ++ [q]) away h
      exact ⟨fun p hp' => this.1 p (List.mem_append_left _ hp'), this.2⟩
    · by_cases h2 : q.team_id = aid
      · simp only [getAllPlayersGo, if_neg h1, if_pos h2] at h
        have := ih home (away ++ [q]) h
        exact ⟨this.1, fun p hp' => this.2 p (List.mem_append_left _ hp')⟩
      · simp [getAllPlayersGo, if_neg h1, if_neg h2] at h

theorem getAllPlayersGo_ok_mem (hid aid : Option ℤ) (ps home away hp ap : List Player)
    (h : getAllPlayersGo hid aid ps home away = .ok (hp, ap)) :
    ∀ p ∈ ps, p ∈ hp ++ ap := by
  induction ps generalizing home away with
  | nil => simp
  | cons q rest ih =>
    intro p hp'
    by_cases h1 : q.team_id = hid
    · simp only [getAllPlayersGo, if_pos h1] at h
      rcases List.mem_cons.mp hp' with rfl | hmem
      · exact List.mem_append_left _
          ((getAllPlayersGo_ok_sub hid aid rest _ _ _ _ h).1 p (by simp))
      · exact ih _ _ h p hmem
    · by_cases h2 : q.team_id = aid
      · simp only [getAllPlayersGo, if_neg h1, if_pos h2] at h
        rcases List.mem_cons.mp hp' with rfl | hmem
        · exact List.mem_append_right _
            ((getAllPlayersGo_ok_sub hid aid rest _ _ _ _ h).2 p (by simp))
        · exact ih _ _ h p hmem
      · simp [getAllPlayersGo, if_neg h1, if_neg h2] at h

theorem getAllPlayersGo_ok_team (hid aid : Option ℤ) (ps home away hp ap : List Player)
    (h : getAllPlayersGo hid aid ps home away = .ok (hp, ap))
    (hhome : ∀ p ∈ home, p.team_id = hid) (haway : ∀ p ∈ away, p.team_id = aid) :
    (∀ p ∈ hp, p.team_id = hid) ∧ (∀ p ∈ ap, p.team_id = aid) := by
  induction ps generalizing home away with
  | nil =>
    simp only [getAllPlayersGo, Except.ok.injEq, Prod.mk.injEq] at h
    exact ⟨h.1 ▸ hhome, h.2 ▸ haway⟩
  | cons q rest ih =>
    by_cases h1 : q.team_id = hid
    · simp only [getAllPlayersGo, if_pos h1] at h
      refine ih _ _ h (fun p hp' => ?_) haway
      rcases List.mem_append.mp hp' with hm | hm
      · exact hhome p hm
      · have : p = q := by simpa using hm
        exact this ▸ h1
    · by_cases h2 : q.team_id = aid
      · simp only [getAllPlayersGo, if_neg h1, if_pos h2] at h
        refine ih _ _ h hhome (fun p hp' => ?_)
        rcases List.mem_append.mp hp' with hm | hm
        · exact haway p hm
        · have : p = q := by simpa using hm
          exact this ▸ h2
      · simp [getAllPlayersGo, if_neg h1, if_neg h2] at h

theorem getAllPlayersGo_mismatch (hid aid : Option ℤ) (ps home away : List Player)
    (h : ∃ p ∈ ps, p.team_id ≠ hid ∧ p.team_id ≠ aid) :
    getAllPlayersGo hid aid ps home away = .error .idMismatchException := by
  induction ps generalizing home away with
  | nil => simp at h
  | cons q rest ih =>
    rcases h with ⟨p, hp, hne⟩
    rcases List.mem_cons.mp hp with rfl | hmem
    · simp [getAllPlayersGo, if_neg hne.1, if_neg hne.2]
    · by_cases h1 : q.team_id = hid
      · simp only [getAllPlayersGo, if_pos h1]
        exact ih _ _ ⟨p, hmem, hne⟩
      · by_cases h2 : q.team_id = aid
        · simp only [getAllPlayersGo, if_neg h1, if_pos h2]
          exact ih _ _ ⟨p, hmem, hne⟩
        · simp [getAllPlayersGo, if_neg h1, if_neg h2]

/-! ### Concrete inputs used by counterexamples and witnesses -/

/-- A bare moment with a frame index, holder id and group (no locations). -/
def mkMoment (f : ℤ) (pid : Option ℤ) (g : Option String) : Moment :=
  ⟨some f, none, some 1, [], pid, g⟩

/-- Seven frames with possession groups `[A, A, null, B, B, B, null]`. -/
def ex7 : List Moment :=
  [mkMoment 1 (some 10) (some "A"), mkMoment 2 (some 10) (some "A"),
   mkMoment 3 none none,
   mkMoment 4 (some 20) (some "B"), mkMoment 5 (some 20) (some "B"),
   mkMoment 6 (some 20) (some "B"),
   mkMoment 7 none none]

/-- A roster with two players sharing the last name "Smith". -/
def psDup : List Player :=
  [⟨some "Smith", some 1, some 100, none, none, none⟩,
   ⟨some "Smith", some 2, some 100, none, none, none⟩]

/-- A roster with two distinctly-named players. -/
def psOk : List Player :=
  [⟨some "X", some 1, some 100, none, none, none⟩,
   ⟨some "Y", some 2, some 200, none, none, none⟩]

/-! ### Claim theorems -/

/-- C1, counterexample: on groups `[A, A, null, B, B, B, null]` the
segmenter does not return exactly the two segments `[A,A]`, `[B,B,B]`: its
result has a third, leading empty segment. -/
theorem ex7_not_two_segments :
    ¬ (buildPossessionStrings ex7).map (fun p => p.map Moment.possession_group) =
      [[some "A", some "A"], [some "B", some "B", some "B"]] := by
  decide

/-- C1, amended: on groups `[A, A, null, B, B, B, null]` the segmenter
returns exactly three segments: a leading empty segment (the all-null test
of the post-scan filter holds only for nonempty segments), then the two
`A`-frames, then the three `B`-frames. The interior null singleton is
dropped by the filter, and the trailing null singleton is the final buffer,
which is never appended to the result. -/
theorem ex7_three_segments :
    buildPossessionStrings ex7 =
      [[], [mkMoment 1 (some 10) (some "A"), mkMoment 2 (some 10) (some "A")],
       [mkMoment 4 (some 20) (some "B"), mkMoment 5 (some 20) (some "B"),
        mkMoment 6 (some 20) (some "B")]] := by
  decide

/-- C2, counterexample: a single frame with a non-null possession group — no
input frame is null, yet the segments returned by the segmenter contain 0 of the
1 input frames, because the final buffer is never flushed. -/
theorem single_frame_total_ne :
    (∀ m ∈ [mkMoment 1 (some 10) (some "A")], m.possession_group ≠ none) ∧
      ((buildPossessionStrings [mkMoment 1 (some 10) (some "A")]).map
        List.length).sum ≠ [mkMoment 1 (some 10) (some "A")].length := by
  decide

/-- C2, amended: the segments returned by `_build_possession_strings`
together contain at most as many frames as the input, with equality exactly
when the input is empty: for a nonempty input the final run of frames stays
in the scan buffer and is never appended to the result, so some frames are
always lost. -/
theorem total_frames_le_and_eq_iff_nil (ms : List Moment) :
    ((buildPossessionStrings ms).map List.length).sum ≤ ms.length ∧
      (((buildPossessionStrings ms).map List.length).sum = ms.length ↔ ms = []) := by
  by_cases hms : ms = []
  · subst hms
    refine ⟨le_refl _, ?_⟩
    simp [buildPossessionStrings, sortByFrame]
  · have hinv := scan_total_invariant (sortByFrame ms) ([], none, [])
    simp only [List.map_nil, List.sum_nil, List.length_nil, Nat.zero_add] at hinv
    rw [sortByFrame_length] at hinv
    have hsort : sortByFrame ms ≠ [] := by
      intro h
      exact hms (List.length_eq_zero.mp (by rw [← sortByFrame_length, h]; rfl))
    have hbuf := scan_buffer_ne_nil (sortByFrame ms) ([], none, []) (Or.inr hsort)
    have hbufpos : 0 < ((sortByFrame ms).foldl scanStep ([], none, [])).2.2.length :=
      List.length_pos.mpr hbuf
    have hfil := filter_sumLen_le keepString
      ((sortByFrame ms).foldl scanStep ([], none, [])).1
    have hlt : ((buildPossessionStrings ms).map List.length).sum < ms.length := by
      unfold buildPossessionStrings
      omega
    exact ⟨Nat.le_of_lt hlt,
      ⟨fun h => absurd h (Nat.ne_of_lt hlt), fun h => absurd h hms⟩⟩

/-- C3: when no moment's possession group is exactly "home team" or
"away team", both counters stay 0 and `get_team_possession_stats` divides
by zero, raising `ZeroDivisionError` — it does not return an explicit
undefined/no-data result. -/
theorem team_stats_no_labels_zero_division (hn an : Option String)
    (ms : List Moment)
    (h : ∀ m ∈ ms, m.possession_group ≠ some "home team" ∧
      m.possession_group ≠ some "away team") :
    getTeamPossessionStats hn an ms = .error .zeroDivisionError := by
  unfold getTeamPossessionStats
  have hh : ms.filter (fun m => decide (m.possession_group = some "home team")) = [] := by
    refine List.filter_eq_nil_iff.mpr (fun m hm => ?_)
    simpa using (h m hm).1
  have ha : ms.filter (fun m => decide (m.possession_group = some "away team")) = [] := by
    refine List.filter_eq_nil_iff.mpr (fun m hm => ?_)
    simpa using (h m hm).2
  simp [hh, ha]

/-- C3, witness: a match whose only moments carry a null group and an
unrecognized group crashes with `ZeroDivisionError`. -/
theorem team_stats_no_labels_zero_division_witness :
    getTeamPossessionStats (some "H") (some "A")
      [mkMoment 1 none none, mkMoment 2 (some 30) (some "other")] =
      .error .zeroDivisionError :=
  team_stats_no_labels_zero_division (some "H") (some "A")
    [mkMoment 1 none none, mkMoment 2 (some 30) (some "other")] (by decide)

/-- C4: a frame record with no `possession` key does not construct a frame
with null possession fields — `_get_possession` calls `.get` on `None` and
frame construction raises `AttributeError`. -/
theorem moment_missing_possession_error :
    buildMoment ⟨some 1, none, some 1, [], none⟩ =
      .error .attributeError := by
  decide

/-- C5: rendering any `StringOfPossession` raises `AttributeError` instead
of producing a transition trace: `__repr__` reads
`self.string_of_possession`, an attribute `__init__` never assigns (the
frame list is stored as `self.moments`). -/
theorem repr_string_of_possession_attribute_error (s : StringOfPossession) :
    reprSOP s = .error .attributeError := by
  simp [reprSOP, sopAttrNames]

/-- C6: whenever the roster partition succeeds, every player of the roster
is in the combined home-plus-away roster and every assigned player's team
id is one of the two registered team ids; and whenever some player's team
id matches neither, the whole construction aborts with
`IdMismatchException`. -/
theorem get_all_players_partition_and_mismatch (hid aid : Option ℤ)
    (ps hp ap : List Player) :
    (getAllPlayers hid aid ps = .ok (hp, ap) →
      (∀ p ∈ ps, p ∈ hp ++ ap) ∧
        (∀ p ∈ hp ++ ap, p.team_id = hid ∨ p.team_id = aid)) ∧
      ((∃ p ∈ ps, p.team_id ≠ hid ∧ p.team_id ≠ aid) →
        getAllPlayers hid aid ps = .error .idMismatchException) := by
  constructor
  · intro hok
    refine ⟨getAllPlayersGo_ok_mem hid aid ps [] [] hp ap hok, ?_⟩
    have hteam := getAllPlayersGo_ok_team hid aid ps [] [] hp ap hok
      (by simp) (by simp)
    intro p hp'
    rcases List.mem_append.mp hp' with hm | hm
    · exact Or.inl (hteam.1 p hm)
    · exact Or.inr (hteam.2 p hm)
  · exact getAllPlayersGo_mismatch hid aid ps [] []

/-- C6, witness: a valid two-player roster is fully partitioned with
matching team ids, and appending a player with an unregistered team id
makes construction fail with `IdMismatchException`. -/
theorem get_all_players_partition_and_mismatch_witness :
    ((∀ p ∈ psOk, p ∈ [(⟨some "X", some 1, some 100, none, none, none⟩ : Player)] ++
        [⟨some "Y", some 2, some 200, none, none, none⟩]) ∧
      (∀ p ∈ [(⟨some "X", some 1, some 100, none, none, none⟩ : Player)] ++
        [⟨some "Y", some 2, some 200, none, none, none⟩],
        p.team_id = some 100 ∨ p.team_id = some 200)) ∧
    getAllPlayers (some 100) (some 200)
      (psOk ++ [⟨some "Z", some 5, some 999, none, none, none⟩]) =
      .error .idMismatchException :=
  ⟨(get_all_players_partition_and_mismatch (some 100) (some 200) psOk
      [⟨some "X", some 1, some 100, none, none, none⟩]
      [⟨some "Y", some 2, some 200, none, none, none⟩]).1 (by decide),
   (get_all_players_partition_and_mismatch (some 100) (some 200)
      (psOk ++ [⟨some "Z", some 5, some 999, none, none, none⟩]) [] []).2 (by decide)⟩

/-- C7, counterexample: with two players both named "Smith" (ids 1 and 2),
ball id 3 and referee id 4, composing the two lookups is not the identity:
id 1 resolves to "Smith", which resolves back to id 2. -/
theorem duplicate_name_lookups_not_inverse :
    ¬ ∀ (k : Option ℤ) (v : Option String),
      dictGet (buildIdToName psDup (some 3) (some 4)) k = some v →
        dictGet (buildNameToId (buildIdToName psDup (some 3) (some 4))) v = some k := by
  intro h
  have h1 : dictGet (buildIdToName psDup (some 3) (some 4)) (some 1) =
      some (some "Smith") := by decide
  exact absurd (h (some 1) (some "Smith") h1) (by decide)

/-- C7, amended: provided all participant identifiers (player ids, ball id,
referee id) are pairwise distinct and all display names (player last names,
"ball", "referee") are pairwise distinct, the two lookups built by
`_build_lookups` are exact mutual inverses, and the id-to-name key set
covers exactly every player plus the ball and the referee. Without those
distinctness assumptions (which the code never checks) the inversion fails. -/
theorem lookups_inverse_of_nodup (ps : List Player) (bid rid : Option ℤ)
    (hids : ((ps.map Player.player_id) ++ [bid, rid]).Nodup)
    (hnames : ((ps.map Player.last_name) ++ [some "ball", some "referee"]).Nodup) :
    (∀ (k : Option ℤ) (v : Option String),
      dictGet (buildIdToName ps bid rid) k = some v ↔
        dictGet (buildNameToId (buildIdToName ps bid rid)) v = some k) ∧
    (∀ k : Option ℤ, (dictGet (buildIdToName ps bid rid) k).isSome ↔
      (k ∈ ps.map Player.player_id ∨ k = bid ∨ k = rid)) := by
  have hL := buildIdToName_eq ps bid rid hids
  have hLkeys : ((buildIdToName ps bid rid).map Prod.fst).Nodup := by
    rw [hL]
    simpa [List.map_append, Function.comp] using hids
  have hLvals : ((buildIdToName ps bid rid).map Prod.snd).Nodup := by
    rw [hL]
    simpa [List.map_append, Function.comp] using hnames
  have hN := buildNameToId_eq (buildIdToName ps bid rid) hLvals
  have hNkeys : ((buildNameToId (buildIdToName ps bid rid)).map Prod.fst).Nodup := by
    rw [hN]
    simpa [List.map_map, Function.comp] using hLvals
  constructor
  · intro k v
    rw [dictGet_mem _ k v hLkeys, dictGet_mem _ v k hNkeys, hN]
    constructor
    · intro hmem
      exact List.mem_map.mpr ⟨(k, v), hmem, rfl⟩
    · intro hmem
      rcases List.mem_map.mp hmem with ⟨⟨k', v'⟩, hmem', heq⟩
      injection heq with h1 h2
      subst h1
      subst h2
      exact hmem'
  · intro k
    rw [dictGet_isSome, hL]
    simp [List.map_append, Function.comp]

/-- C7, witness: for a roster of two distinctly named players with ids 1
and 2, ball id 3 and referee id 4, the distinctness hypotheses hold and the
lookups are mutual inverses covering players, ball and referee. -/
theorem lookups_inverse_of_nodup_witness :
    (∀ (k : Option ℤ) (v : Option String),
      dictGet (buildIdToName psOk (some 3) (some 4)) k = some v ↔
        dictGet (buildNameToId (buildIdToName psOk (some 3) (some 4))) v = some k) ∧
    (∀ k : Option ℤ, (dictGet (buildIdToName psOk (some 3) (some 4)) k).isSome ↔
      (k ∈ psOk.map Player.player_id ∨ k = some 3 ∨ k = some 4)) :=
  lookups_inverse_of_nodup psOk (some 3) (some 4) (by decide) (by decide)

/-- C8, counterexample: a location record with no `y` field in a period-2
frame does not construct a `Location` at all (so in particular no
normalized y equal to the negated raw y is produced): `-None` raises
`TypeError`. -/
theorem location_missing_y_period2_error :
    buildLocation ⟨none, none, none, none, none⟩ (some 2) = .error .typeError ∧
      ∀ loc : Location, buildLocation ⟨none, none, none, none, none⟩ (some 2) ≠ .ok loc := by
  refine ⟨rfl, fun loc h => ?_⟩
  simp [buildLocation] at h

/-- C8, amended: for every location record, when the period is 2 and the
raw y is present the constructed location's normalized y is the negation of
the raw y, and when the period is not 2 the normalized y equals the raw y
(null included); in both cases the raw y is stored unchanged and
construction reads nothing but the record and the period. -/
theorem normalized_y_spec (j : LocationJson) (p : Option ℤ) :
    (p = some 2 → ∀ v : ℚ, j.y = some v →
      buildLocation j p =
        .ok ⟨j.x, j.y, some (-v), j.z, j.trackable_object, j.track_id⟩) ∧
    (p ≠ some 2 →
      buildLocation j p =
        .ok ⟨j.x, j.y, j.y, j.z, j.trackable_object, j.track_id⟩) := by
  constructor
  · intro hp v hy
    subst hp
    simp [buildLocation, hy, flipY]
  · intro hp
    simp [buildLocation, hp]

/-- C8, witness: a record with y = 5 in period 2 normalizes to -5 with the
raw y kept, and the same record in period 1 keeps y unchanged. -/
theorem normalized_y_spec_witness :
    buildLocation ⟨some 1, some 5, some 7, some 9, some 11⟩ (some 2) =
      .ok ⟨some 1, some 5, some (-5), some 7, some 9, some 11⟩ ∧
    buildLocation ⟨some 1, some 5, some 7, some 9, some 11⟩ (some 1) =
      .ok ⟨some 1, some 5, some 5, some 7, some 9, some 11⟩ :=
  ⟨(normalized_y_spec ⟨some 1, some 5, some 7, some 9, some 11⟩ (some 2)).1 rfl 5 rfl,
   (normalized_y_spec ⟨some 1, some 5, some 7, some 9, some 11⟩ (some 1)).2 (by decide)⟩

/-- C10: a moment whose possession holder id is 0 is excluded from the
player possession statistics exactly as a null holder is — removing such a
moment leaves the whole result (numerators, denominator, ordering)
unchanged — because the comprehension filters on Python truthiness, which
counts exactly the moments with a non-null, non-zero holder id. -/
theorem player_stats_zero_id_excluded (i2n : List (Option ℤ × Option String))
    (l1 l2 : List Moment) (m : Moment)
    (h : m.possession_id = none ∨ m.possession_id = some 0) :
    getPlayerPossessionStats i2n (l1 ++ m :: l2) =
        getPlayerPossessionStats i2n (l1 ++ l2) ∧
      ∀ ms : List Moment,
        ms.filter (fun x => pyTruthy x.possession_id) =
          ms.filter (fun x =>
            decide (x.possession_id ≠ none) && decide (x.possession_id ≠ some 0)) := by
  have hfalse : pyTruthy m.possession_id = false := by
    rcases h with h | h <;> simp [pyTruthy, h]
  have hnames : playerNames i2n (l1 ++ m :: l2) = playerNames i2n (l1 ++ l2) := by
    simp [playerNames, List.filter_append, List.filter_cons, hfalse]
  constructor
  · simp [getPlayerPossessionStats, hnames]
  · intro ms
    refine List.filter_congr (fun x _ => ?_)
    rcases hx : x.possession_id with _ | v
    · simp [pyTruthy]
    · by_cases hv : v = 0 <;> simp [pyTruthy, hv]

/-- C10, witness: inserting a moment with holder id 0 between two counted
moments leaves the player possession stats unchanged, and the truthiness
filter coincides with the explicit non-null-and-non-zero filter. -/
theorem player_stats_zero_id_excluded_witness :
    (getPlayerPossessionStats [(some 10, some "P")]
        ([mkMoment 1 (some 10) (some "A")] ++
          mkMoment 2 (some 0) (some "A") :: [mkMoment 3 (some 10) (some "A")]) =
      getPlayerPossessionStats [(some 10, some "P")]
        ([mkMoment 1 (some 10) (some "A")] ++ [mkMoment 3 (some 10) (some "A")])) ∧
      ∀ ms : List Moment,
        ms.filter (fun x => pyTruthy x.possession_id) =
          ms.filter (fun x =>
            decide (x.possession_id ≠ none) && decide (x.possession_id ≠ some 0)) :=
  player_stats_zero_id_excluded [(some 10, some "P")]
    [mkMoment 1 (some 10) (some "A")] [mkMoment 3 (some 10) (some "A")]
    (mkMoment 2 (some 0) (some "A")) (by decide)

/-- C9: a metadata document whose referees list is absent or empty makes
registry construction raise `IndexError` (from `[][0]`) — the referee
identifier does not resolve to null. -/
theorem referee_missing_index_error :
    getReferee none = .error .indexError ∧
      getReferee (some []) = .error .indexError := by
  decide

end TrackingAnalysis
